import Mathlib

/-!
Verification of the event-delivery and transactional-write-coordination core
of the gomarket-platform product service, as a shallow embedding in Lean.

Embedded components (each definition follows the named Go source):
* `pgxDo`, `txBegin`, `txCommit`, `txRollback`, `GetTxFromContext`
  — `pkg/tx` (`pgxTxManager.Do` and friends).
* `retryGo` / `consumeRetryLoop`, `kafkaBackoff`
  — `pkg/messaging` (`KafkaMessaging.consumeMessages` retry loop).
* `createProduct` — `internal/domain/services/product_service.go`
  (`ProductService.CreateProduct`).
* `listProductsRepoArgs` — `ProductService.ListProducts` pagination guard.
* `buildKey`, `deleteByPatternWithTenant`, `globMatch`
  — `internal/adapters/cache/redis.go` plus a model of the Redis glob
  (`stringmatchlen`) semantics of the external cache store.
* `createTopic`, `deleteTopic`, `unsubscribeStep`, `pollStep`
  — `internal/adapters/messaging/kafka.go`.

External collaborators (postgres transactions, the Kafka broker, the Redis
server) are modelled as oracle-driven state machines: an oracle fixes which of
their fallible operations fail, and the embedding threads an explicit store.
-/

set_option autoImplicit false

/-! ## Transaction manager (`pkg/tx`, `pgxTxManager.Do`) -/

/-- Lifecycle state of one database transaction, as seen through pgx:
`opened` after `Begin`, `committed` after a successful `Commit`,
`commitFailed` after a failed `Commit` (the transaction is closed but the
write was not made durable), `rolledBack` after `Rollback`. -/
inductive TxStatus where
  | opened
  | committed
  | commitFailed
  | rolledBack
deriving DecidableEq

/-- Failure oracle for the external collaborators of one `Do` call:
whether `pool.Begin`, `tx.Commit`, `tx.Rollback` or the repository
`SaveProduct` statement fail when invoked. -/
structure PgxOracle where
  beginFails : Bool
  commitFails : Bool
  rollbackFails : Bool
  saveFails : Bool
deriving DecidableEq

/-- Observable transaction-lifecycle events, recorded in order. -/
inductive TxEvent where
  | began (id : Nat)
  | committedTx (id : Nat)
  | commitFailedTx (id : Nat)
  | rolledBackTx (id : Nat)
  | rollbackFailedTx (id : Nat)
  | rollbackNoop (id : Nat)
deriving DecidableEq

/-- A row written by the product repository (the fields of
`models.Product` that the core manipulates). -/
structure Product where
  id : String
  supplierID : String
  tenantID : String
  createdAt : Nat
  updatedAt : Nat
deriving DecidableEq

/-- The store shared by the pool and all transactions: a fresh-id counter,
the status of every begun transaction, the rows buffered inside each open
transaction, the durable (committed) rows, and the event trace. -/
structure TxStore where
  nextTx : Nat
  status : Nat → Option TxStatus
  pending : Nat → List Product
  committedRows : List Product
  trace : List TxEvent

/-- `context.Context` as the core uses it: the value stored under the
private `txKey` (`nil` when no transaction is carried). -/
structure Ctx where
  txVal : Option Nat
deriving DecidableEq

/-- `GetTxFromContext` (`pkg/tx`): read the transaction handle out of the
context. -/
def GetTxFromContext (ctx : Ctx) : Option Nat :=
  ctx.txVal

/-- `pool.Begin`: allocate a fresh transaction handle, mark it open; a new
transaction starts with nothing buffered. -/
def txBegin (s : TxStore) : Nat × TxStore :=
  (s.nextTx,
    { s with
      nextTx := s.nextTx + 1
      status := fun i => if i = s.nextTx then some TxStatus.opened else s.status i
      pending := fun i => if i = s.nextTx then [] else s.pending i
      trace := s.trace ++ [TxEvent.began s.nextTx] })

/-- `tx.Commit`: on an open transaction, either commit (pending rows become
durable) or fail per the oracle (the transaction closes without making the
rows durable). On a finished transaction pgx returns `ErrTxClosed` and does
nothing. -/
def txCommit (o : PgxOracle) (id : Nat) (s : TxStore) : Option String × TxStore :=
  match s.status id with
  | some TxStatus.opened =>
      if o.commitFails then
        (some "commit error",
          { s with
            status := fun i => if i = id then some TxStatus.commitFailed else s.status i
            pending := fun i => if i = id then [] else s.pending i
            trace := s.trace ++ [TxEvent.commitFailedTx id] })
      else
        (none,
          { s with
            status := fun i => if i = id then some TxStatus.committed else s.status i
            pending := fun i => if i = id then [] else s.pending i
            committedRows := s.committedRows ++ s.pending id
            trace := s.trace ++ [TxEvent.committedTx id] })
  | _ => (some "tx is closed", s)

/-- `tx.Rollback`: on an open transaction, discard its pending rows and
close it; per pgx the transaction is finished even when the rollback call
itself reports an error. On a finished transaction pgx returns
`ErrTxClosed` and does nothing. -/
def txRollback (o : PgxOracle) (id : Nat) (s : TxStore) : Option String × TxStore :=
  match s.status id with
  | some TxStatus.opened =>
      if o.rollbackFails then
        (some "rollback error",
          { s with
            status := fun i => if i = id then some TxStatus.rolledBack else s.status i
            pending := fun i => if i = id then [] else s.pending i
            trace := s.trace ++ [TxEvent.rollbackFailedTx id] })
      else
        (none,
          { s with
            status := fun i => if i = id then some TxStatus.rolledBack else s.status i
            pending := fun i => if i = id then [] else s.pending i
            trace := s.trace ++ [TxEvent.rolledBackTx id] })
  | some _ => (some "tx is closed", { s with trace := s.trace ++ [TxEvent.rollbackNoop id] })
  | none => (some "tx is closed", s)

/-- `pgxTxManager.Do` (`pkg/tx`), line for line:
begin; on `Begin` failure return at once (the deferred rollback is only
installed after a successful `Begin`, and `fn` never runs); otherwise derive
the child context carrying the new transaction, run `fn`; if `fn` errs,
roll back explicitly (logging, not returning, a rollback failure) and
return `fn`'s error; if `fn` succeeds, commit, wrapping a commit error.
The deferred `tx.Rollback` then runs in every post-`Begin` path. -/
def pgxDo (o : PgxOracle) (ctx : Ctx)
    (fn : Ctx → TxStore → Option String × TxStore) (s : TxStore) :
    Option String × TxStore :=
  if o.beginFails then
    (some "tx.Begin failed", s)
  else
    let b := txBegin s
    let txCtx : Ctx := { ctx with txVal := some b.1 }
    let r := fn txCtx b.2
    match r.1 with
    | some e =>
        let rb := txRollback o b.1 r.2
        let d := txRollback o b.1 rb.2
        (some e, d.2)
    | none =>
        let c := txCommit o b.1 r.2
        match c.1 with
        | some ce =>
            let d := txRollback o b.1 c.2
            (some ("tx.Commit failed: " ++ ce), d.2)
        | none =>
            let d := txRollback o b.1 c.2
            (none, d.2)

/-- Recognizer for an effective commit of transaction `id`. -/
def isCommitOf (id : Nat) : TxEvent → Bool
  | TxEvent.committedTx j => j == id
  | _ => false

/-- Recognizer for an effective rollback of transaction `id`: a `Rollback`
call made while the transaction was still open (whether or not the call
itself reported an error); `ErrTxClosed` no-ops are not rollbacks. -/
def isRollbackOf (id : Nat) : TxEvent → Bool
  | TxEvent.rolledBackTx j => j == id
  | TxEvent.rollbackFailedTx j => j == id
  | _ => false

/-- Recognizer for a `Begin`. -/
def isBegan : TxEvent → Bool
  | TxEvent.began _ => true
  | _ => false

/-- Effective commits of transaction `id` in a trace. -/
def commitsOf (id : Nat) (tr : List TxEvent) : Nat :=
  tr.countP (isCommitOf id)

/-- Effective rollbacks of transaction `id` in a trace. -/
def rollbacksOf (id : Nat) (tr : List TxEvent) : Nat :=
  tr.countP (isRollbackOf id)

/-- `began` events in a trace. -/
def begansIn (tr : List TxEvent) : Nat :=
  tr.countP isBegan

/-- The empty store. -/
def initStore : TxStore :=
  { nextTx := 0, status := fun _ => none, pending := fun _ => []
    committedRows := [], trace := [] }

/-! ## Consumer retry loop (`pkg` `KafkaMessaging.consumeMessages`) -/

/-- Running state of the per-message retry loop: how often the handler was
invoked, the message's `Attempts` counter, the handler error of the last
attempt (`none` after a success), and the backoff sleeps performed, in
order and in milliseconds. -/
structure RetryAcc where
  invocations : Nat
  attempts : Nat
  finalErr : Option String
  sleeps : List Nat
deriving DecidableEq

/-- The backoff the loop sleeps after failed attempt `attempt` (0-based):
`time.Duration(attempt+1) * 500 * time.Millisecond`, in milliseconds. -/
def kafkaBackoff (attempt : Nat) : Nat :=
  (attempt + 1) * 500

/-- `const maxRetries = 3` in `consumeMessages`. -/
def maxRetries : Nat := 3

/-- The body of `for attempt := 0; attempt < maxRetries; attempt++`:
`rem` is the number of iterations left (`maxRetries - attempt`).
Each iteration increments `msg.Attempts`, invokes the handler
(`outcomes attempt` is the handler's result on the attempt with that
index), breaks on success, and otherwise records the error and sleeps
the backoff before the next iteration. -/
def retryGo (outcomes : Nat → Option String) :
    Nat → Nat → RetryAcc → RetryAcc
  | _, 0, acc => acc
  | attempt, Nat.succ rem, acc =>
      let acc' : RetryAcc :=
        { acc with attempts := acc.attempts + 1, invocations := acc.invocations + 1 }
      match outcomes attempt with
      | none => { acc' with finalErr := none }
      | some e =>
          retryGo outcomes (attempt + 1) rem
            { acc' with finalErr := some e, sleeps := acc'.sleeps ++ [kafkaBackoff attempt] }

/-- One message's retry processing, from a fresh message
(`Attempts == 0`, per `kafkaToInterfaceMessage`). -/
def consumeRetryLoop (outcomes : Nat → Option String) : RetryAcc :=
  retryGo outcomes 0 maxRetries
    { invocations := 0, attempts := 0, finalErr := none, sleeps := [] }

/-! ## Dead-letter escalation (modelled from the spec) -/

/-- A consumed message (the fields of `interfaces.Message` the dead-letter
path uses). -/
structure KMsg where
  id : String
  topic : String
  key : String
  value : String
  tenantID : String
deriving DecidableEq

/-- Modelled from the spec: `DeadLetterRecord` — "{original event, error
description, retry count, timestamp}". The messaging adapter actually wired
into the binaries (the four-argument `NewKafkaMessaging(brokers, groupID,
deadLetterTopic, log)` called by `cmd/api/main.go` and the worker) is not
under `src/`; only its callers and the `KafkaConfig.DeadLetterTopic`
declaration are. -/
structure DeadLetterRecord where
  originalMessage : KMsg
  error : String
  retryCount : Nat
  timestamp : Nat
deriving DecidableEq

/-- Modelled from the spec: the dead-letter step of the consumer loop —
"If all attempts fail and a dead-letter topic is configured, build a
`DeadLetterRecord` (original event, final error text, retry count =
maxRetries, timestamp) and `Publish` it to that topic through the same
EventPublisher". Returns the retry outcome together with the (topic,
record) publishes it performed. The retry loop itself is the one embedded
from `consumeMessages`. -/
def processWithDeadLetter (deadLetterTopic : Option String) (now : Nat)
    (msg : KMsg) (outcomes : Nat → Option String) :
    RetryAcc × List (String × DeadLetterRecord) :=
  let r := consumeRetryLoop outcomes
  match r.finalErr, deadLetterTopic with
  | some e, some t =>
      (r, [(t, { originalMessage := msg, error := e, retryCount := maxRetries,
                 timestamp := now })])
  | _, _ => (r, [])

/-- Modelled from the spec: the consumer loop over a stream of messages —
after a message exhausts its retries (dead-lettered or dropped) the loop
"continue"s with the next message; a single message's permanent failure
never halts the subscription. -/
def consumeAllMessages (deadLetterTopic : Option String) (now : Nat) :
    List (KMsg × (Nat → Option String)) →
    List RetryAcc × List (String × DeadLetterRecord)
  | [] => ([], [])
  | (m, h) :: rest =>
      let p := processWithDeadLetter deadLetterTopic now m h
      let q := consumeAllMessages deadLetterTopic now rest
      (p.1 :: q.1, p.2 ++ q.2)

/-! ## ProductService.CreateProduct (`product_service.go`) -/

/-- `messaging.ProductCreatedEvent` (`pkg` event constants). -/
def ProductCreatedEvent : String := "product_created"

/-- The repository `SaveProduct` running inside a unit of work: the row is
buffered in the context-carried transaction (the repository and `Do` share
`txKey`), becoming durable only on commit; per the oracle the SQL statement
may fail. With no transaction in the context the repository falls back to
the pool and the write is immediately durable (auto-commit). -/
def txSaveProduct (o : PgxOracle) (ctx : Ctx) (p : Product) (s : TxStore) :
    Option String × TxStore :=
  if o.saveFails then
    (some "repository.SaveProduct failed", s)
  else
    match ctx.txVal with
    | some id =>
        match s.status id with
        | some TxStatus.opened =>
            (none, { s with pending := fun i => if i = id then s.pending id ++ [p] else s.pending i })
        | _ => (some "tx is closed", s)
    | none => (none, { s with committedRows := s.committedRows ++ [p] })

/-- The change event `CreateProduct` publishes to "product-events" after a
successful commit (the fields of the marshalled struct). -/
structure PublishedEvent where
  topic : String
  eventType : String
  tenantID : String
  productID : String
  supplierID : String
deriving DecidableEq

/-- The outcome of `CreateProduct`: the returned product and error, the
events published, and the resulting store. -/
structure CreateOutcome where
  product : Option Product
  err : Option String
  published : List PublishedEvent
  store : TxStore

/-- `ProductService.CreateProduct`: inside `txManager.Do`, assign a fresh
id when the product has none, stamp `CreatedAt`/`UpdatedAt` with `now`, and
`SaveProduct`; on `Do` failure return the wrapped error with no publish;
after `Do` succeeds, build the `product_created` event and `Publish` it to
"product-events" — a publish failure (`pubFails`) is logged and the call
still returns the created product with a nil error. -/
def createProduct (o : PgxOracle) (pubFails : Bool) (newId : String)
    (now : Nat) (p : Product) (s : TxStore) : CreateOutcome :=
  let p' : Product :=
    { p with
      id := if p.id = "" then newId else p.id
      createdAt := now
      updatedAt := now }
  let r := pgxDo o { txVal := none } (fun txCtx st => txSaveProduct o txCtx p' st) s
  match r.1 with
  | some e =>
      { product := none, err := some ("transaction failed: " ++ e)
        published := [], store := r.2 }
  | none =>
      let ev : PublishedEvent :=
        { topic := "product-events", eventType := ProductCreatedEvent
          tenantID := p'.tenantID, productID := p'.id, supplierID := p'.supplierID }
      if pubFails then
        { product := some p', err := none, published := [], store := r.2 }
      else
        { product := some p', err := none, published := [ev], store := r.2 }

/-! ## ProductService.ListProducts pagination guard -/

/-- The pagination normalization at the top of `ProductService.ListProducts`
(the `page`/`pageSize` values every later use in the function, including
the `repository.ListProducts` call, receives). Go `int` is embedded as
`Int`. -/
def listProductsRepoArgs (page pageSize : Int) : Int × Int :=
  let page := if page ≤ 0 then 1 else page
  let pageSize := if pageSize ≤ 0 then 20 else if pageSize > 100 then 100 else pageSize
  (page, pageSize)

/-! ## Kafka topic administration (`internal/adapters/messaging/kafka.go`) -/

/-- The broker result codes the admin paths distinguish. -/
inductive KafkaErrCode where
  | errNoError
  | errTopicAlreadyExists
  | errUnknownTopicOrPart
deriving DecidableEq

/-- One per-topic result returned by the admin client. -/
structure TopicResult where
  topic : String
  code : KafkaErrCode
deriving DecidableEq

/-- The external Kafka admin client's `CreateTopics` on a broker modelled
as its topic list: creating an existing topic reports
`ErrTopicAlreadyExists` for it, otherwise the topic is created with
`ErrNoError`. -/
def adminCreateTopics (broker : List String) (topic : String) :
    List String × List TopicResult :=
  if topic ∈ broker then
    (broker, [{ topic := topic, code := KafkaErrCode.errTopicAlreadyExists }])
  else
    (broker ++ [topic], [{ topic := topic, code := KafkaErrCode.errNoError }])

/-- The external Kafka admin client's `DeleteTopics`: deleting an absent
topic reports `ErrUnknownTopicOrPart` for it. -/
def adminDeleteTopics (broker : List String) (topic : String) :
    List String × List TopicResult :=
  if topic ∈ broker then
    (broker.erase topic, [{ topic := topic, code := KafkaErrCode.errNoError }])
  else
    (broker, [{ topic := topic, code := KafkaErrCode.errUnknownTopicOrPart }])

/-- The result check shared by `CreateTopic` and `DeleteTopic`:
`for _, r := range result { if r.Error.Code() != kafka.ErrNoError { return err } }`. -/
def checkTopicResults : List TopicResult → Option String
  | [] => none
  | r :: rest =>
      if r.code ≠ KafkaErrCode.errNoError then some ("topic error: " ++ r.topic)
      else checkTopicResults rest

/-- `KafkaMessaging.CreateTopic`: run the admin create, then fail on any
per-topic code other than `ErrNoError`. -/
def createTopic (broker : List String) (topic : String) :
    List String × Option String :=
  let a := adminCreateTopics broker topic
  (a.1, checkTopicResults a.2)

/-- `KafkaMessaging.DeleteTopic`: run the admin delete, then fail on any
per-topic code other than `ErrNoError`. -/
def deleteTopic (broker : List String) (topic : String) :
    List String × Option String :=
  let a := adminDeleteTopics broker topic
  (a.1, checkTopicResults a.2)

/-! ## Subscription registry (`internal/adapters/messaging/kafka.go`) -/

/-- The registry state of `KafkaMessaging`: `handlers` is the
`topic -> handlerID -> handler` map (`map[string]map[string]MessageHandler`),
`consumers` the `handlerID -> consumer` map. Handlers and consumers are
opaque tokens; Go maps are embedded as function maps. The claims concern
registry contents between poll cycles, so the mutex-guarded reads and
writes appear as plain reads and writes of this state. -/
structure KafkaRegistry where
  handlers : String → Option (String → Option Nat)
  consumers : String → Option Nat

/-- The `unsubscribe` closure returned by `SubscribeWithConfig`: delete
the handler from `handlers[topic]` (a no-op when the topic has no handler
map), remove this subscription's consumer from `consumers` and close it
when present. Returns the new registry and the consumers closed. -/
def unsubscribeStep (k : KafkaRegistry) (topic hid : String) :
    KafkaRegistry × List Nat :=
  let handlers' : String → Option (String → Option Nat) := fun t =>
    if t = topic then
      match k.handlers topic with
      | some m => some (fun h => if h = hid then none else m h)
      | none => none
    else k.handlers t
  let closed : List Nat :=
    match k.consumers hid with
    | some c => [c]
    | none => []
  ({ handlers := handlers'
     consumers := fun h => if h = hid then none else k.consumers h },
   closed)

/-- The handler lookup a poll cycle of `consumeMessages` performs for a
received `*kafka.Message`: read `handlers[topic]`, `continue` when the
topic map is missing, then read `handlers[topic][handlerID]`, `continue`
when the handler is missing. Returns the handler that gets invoked, or
`none` when the cycle skips invocation. -/
def pollStep (k : KafkaRegistry) (topic hid : String) : Option Nat :=
  match k.handlers topic with
  | none => none
  | some m => m hid

/-! ## Redis cache invalidation (`internal/adapters/cache/redis.go`) -/

/-- `RedisCache.buildKey`: `fmt.Sprintf("tenant:%s:%s", tenantID, key)`
when a tenant is given, the bare key otherwise. -/
def buildKey (key tenantID : String) : String :=
  if tenantID ≠ "" then "tenant:" ++ tenantID ++ ":" ++ key else key

/-- Collapse a run of leading `*` wildcards (the consecutive-star skip in
Redis `stringmatchlen`, and the trailing-star forgiveness applied when the
subject string runs out). -/
def skipStars : List Char → List Char
  | [] => []
  | c :: p => if c = '*' then skipStars p else c :: p

/-- A `[a-b]` range test, with the bounds taken in either order, on code
points (Redis compares bytes; keys here are ASCII). -/
def rangeMatch (a b c : Char) : Bool :=
  if a.val ≤ b.val then a.val ≤ c.val && c.val ≤ b.val
  else b.val ≤ c.val && c.val ≤ a.val

/-- The body scan of a `[...]` class in Redis `stringmatchlen`: an escaped
character matches literally, `]` ends the class, `x-y` is a range,
anything else matches literally; an unterminated class runs to the end of
the pattern. Returns whether `c` matched and the pattern rest after the
class. -/
def classBody : List Char → Char → Bool → Bool × List Char
  | [], _, m => (m, [])
  | '\\' :: d :: rest, c, m => classBody rest c (m || (d == c))
  | x :: '-' :: b :: rest2, c, m =>
      if x == ']' then (m, '-' :: b :: rest2)
      else classBody rest2 c (m || rangeMatch x b c)
  | x :: rest, c, m =>
      if x == ']' then (m, rest)
      else classBody rest c (m || (x == c))

/-- The optional leading `^` negation of a `[...]` class. -/
def classNeg : List Char → Bool × List Char
  | [] => (false, [])
  | c :: p => if c = '^' then (true, p) else (false, c :: p)

/-- Redis glob matching (`stringmatchlen` from redis `util.c`), the MATCH
semantics of the external cache store's `SCAN`, with explicit fuel: every
recursive call shrinks `pattern.length + string.length`, so any larger
fuel computes the match (`gm_fuel_eq`). `*` tries the rest of the pattern
against every nonempty suffix (a pattern of only `*`s also matches what
remains); `?` consumes one character; `[...]` matches a class; `\\x` is a
literal `x`; anything else is a literal. When the subject is exhausted
right after a consuming step, trailing `*`s are forgiven. -/
def gm : Nat → List Char → List Char → Bool
  | 0, _, _ => false
  | _ + 1, [], s => s.isEmpty
  | _ + 1, _ :: _, [] => false
  | f + 1, c :: p, d :: s =>
      if c == '*' then
        (skipStars p).isEmpty || gm f (skipStars p) (d :: s) || gm f (c :: p) s
      else if c == '?' then
        (match s with
         | [] => (skipStars p).isEmpty
         | _ :: _ => gm f p s)
      else if c == '[' then
        let nb := classNeg p
        let mr := classBody nb.2 d false
        (if nb.1 then !mr.1 else mr.1) &&
          (match s with
           | [] => (skipStars mr.2).isEmpty
           | _ :: _ => gm f mr.2 s)
      else if c == '\\' then
        (match p with
         | e :: p2 =>
             (e == d) &&
               (match s with
                | [] => (skipStars p2).isEmpty
                | _ :: _ => gm f p2 s)
         | [] =>
             (c == d) && s.isEmpty)
      else
        (c == d) &&
          (match s with
           | [] => (skipStars p).isEmpty
           | _ :: _ => gm f p s)

/-- Redis glob matching at sufficient fuel. -/
def globMatch (p s : List Char) : Bool :=
  gm (p.length + s.length + 1) p s

/-- `RedisCache.DeleteByPatternWithTenant`: scan with the tenant-scoped
pattern `buildKey(pattern, tenantID)` and delete every key the server
reports as matching. The `SCAN`/batched-`DEL` loop (100 keys per round
trip) is embedded by its net effect on the keyspace — batching bounds the
per-round-trip work, not which keys are deleted. Returns the keys that
remain. -/
def deleteByPatternWithTenant (cache : List String) (pattern tenantID : String) :
    List String :=
  cache.filter (fun k => !(globMatch (buildKey pattern tenantID).toList k.toList))

/-- A pattern character with no special glob meaning. -/
def isLit (c : Char) : Bool :=
  !(c == '*') && !(c == '?') && !(c == '[') && !(c == '\\')

/-- The continuation of the matcher loop after consuming one subject
character: with subject left, keep matching; with the subject exhausted,
trailing `*`s are forgiven and the pattern must be empty. -/
def gmTail (p s : List Char) : Bool :=
  match s with
  | [] => (skipStars p).isEmpty
  | _ :: _ => globMatch p s

/-! ## Theorems -/

/-- C1: `TxManager.Do(ctx, fn)` with `fn` returning nil performs exactly one
commit and zero rollbacks of the transaction it began; with `fn` returning an
error it performs exactly one rollback and zero commits and returns `fn`'s
original error (a rollback failure is logged but does not override it); and
if `Begin` fails, `fn` is never invoked and the `Begin` error is returned
immediately. `fn` is quantified over every result behaviour of a client
callback (a callback that does not itself drive the transaction's
lifecycle); the `Begin`-failure part holds for arbitrary `fn`. -/
theorem tx_do_commit_rollback_discipline
    (o : PgxOracle) (ctx : Ctx) (s : TxStore) (e : String) :
    (o.beginFails = true →
      ∀ fn, pgxDo o ctx fn s = (some "tx.Begin failed", s)) ∧
    (o.beginFails = false → o.commitFails = false →
      (pgxDo o ctx (fun _ st => (none, st)) s).1 = none ∧
      commitsOf s.nextTx (pgxDo o ctx (fun _ st => (none, st)) s).2.trace
        = commitsOf s.nextTx s.trace + 1 ∧
      rollbacksOf s.nextTx (pgxDo o ctx (fun _ st => (none, st)) s).2.trace
        = rollbacksOf s.nextTx s.trace) ∧
    (o.beginFails = false →
      (pgxDo o ctx (fun _ st => (some e, st)) s).1 = some e ∧
      rollbacksOf s.nextTx (pgxDo o ctx (fun _ st => (some e, st)) s).2.trace
        = rollbacksOf s.nextTx s.trace + 1 ∧
      commitsOf s.nextTx (pgxDo o ctx (fun _ st => (some e, st)) s).2.trace
        = commitsOf s.nextTx s.trace) := by
  refine ⟨fun hb fn => by simp [pgxDo, hb], fun hb hc => ?_, fun hb => ?_⟩
  · simp [pgxDo, hb, txBegin, txCommit, txRollback, hc, commitsOf, rollbacksOf,
      List.countP_append, isCommitOf, isRollbackOf]
  · cases hr : o.rollbackFails <;>
      simp [pgxDo, hb, txBegin, txCommit, txRollback, hr, commitsOf, rollbacksOf,
        List.countP_append, isCommitOf, isRollbackOf]

/-- Witness for C1: concrete runs from the empty store, one per branch of
the discipline theorem. -/
theorem tx_do_commit_rollback_discipline_witness :
    (pgxDo ⟨true, false, false, false⟩ ⟨none⟩ (fun _ st => (none, st)) initStore
      = (some "tx.Begin failed", initStore)) ∧
    ((pgxDo ⟨false, false, false, false⟩ ⟨none⟩ (fun _ st => (none, st)) initStore).1 = none ∧
      commitsOf 0 (pgxDo ⟨false, false, false, false⟩ ⟨none⟩
        (fun _ st => (none, st)) initStore).2.trace = commitsOf 0 initStore.trace + 1 ∧
      rollbacksOf 0 (pgxDo ⟨false, false, false, false⟩ ⟨none⟩
        (fun _ st => (none, st)) initStore).2.trace = rollbacksOf 0 initStore.trace) ∧
    ((pgxDo ⟨false, false, true, false⟩ ⟨none⟩ (fun _ st => (some "boom", st)) initStore).1
        = some "boom" ∧
      rollbacksOf 0 (pgxDo ⟨false, false, true, false⟩ ⟨none⟩
        (fun _ st => (some "boom", st)) initStore).2.trace = rollbacksOf 0 initStore.trace + 1 ∧
      commitsOf 0 (pgxDo ⟨false, false, true, false⟩ ⟨none⟩
        (fun _ st => (some "boom", st)) initStore).2.trace = commitsOf 0 initStore.trace) :=
  ⟨(tx_do_commit_rollback_discipline ⟨true, false, false, false⟩ ⟨none⟩ initStore "boom").1
      rfl (fun _ st => (none, st)),
   (tx_do_commit_rollback_discipline ⟨false, false, false, false⟩ ⟨none⟩ initStore "boom").2.1
      rfl rfl,
   (tx_do_commit_rollback_discipline ⟨false, false, true, false⟩ ⟨none⟩ initStore "boom").2.2
      rfl⟩

/-- C6 counterexample: `Do` does not reuse a context-carried transaction.
The outer `Do` passes its handle to `fn` through the context; `fn` starts an
inner `Do`, whose own `fn` compares the handle it receives with the outer
one and errs with "reused outer tx" only if they coincide. The run returns
`none` — the handles differ — and the trace shows two `began` events, so the
inner call began a second transaction instead of reusing the outer one. -/
theorem tx_do_reentrant_counterexample :
    (pgxDo ⟨false, false, false, false⟩ ⟨none⟩
      (fun octx st => pgxDo ⟨false, false, false, false⟩ octx
        (fun ictx ist =>
          (if ictx.txVal = octx.txVal then some "reused outer tx" else none, ist)) st)
      initStore).1 = none ∧
    begansIn (pgxDo ⟨false, false, false, false⟩ ⟨none⟩
      (fun octx st => pgxDo ⟨false, false, false, false⟩ octx
        (fun ictx ist =>
          (if ictx.txVal = octx.txVal then some "reused outer tx" else none, ist)) st)
      initStore).2.trace = 2 := by
  constructor <;> rfl

/-- C6 amended: a re-entrant `Do` begins a new, independent transaction
rather than reusing the handle carried in the context. `Do` ignores the
incoming context's transaction value entirely (first conjunct: its result
is the same for any two incoming contexts), and in a re-entrant run the
inner `fn` observes a handle different from the outer one (the probe
returns `none`, not "reused outer tx") while the trace gains two `began`
events. -/
theorem tx_do_reentrant_begins_new
    (o : PgxOracle) (c c' : Ctx) (s : TxStore)
    (hb : o.beginFails = false) (hc : o.commitFails = false) :
    (∀ fn, pgxDo o c fn s = pgxDo o c' fn s) ∧
    (pgxDo o c
      (fun octx st => pgxDo o octx
        (fun ictx ist =>
          (if ictx.txVal = octx.txVal then some "reused outer tx" else none, ist)) st)
      s).1 = none ∧
    begansIn (pgxDo o c
      (fun octx st => pgxDo o octx
        (fun ictx ist =>
          (if ictx.txVal = octx.txVal then some "reused outer tx" else none, ist)) st)
      s).2.trace = begansIn s.trace + 2 := by
  refine ⟨fun fn => rfl, ?_, ?_⟩ <;>
    simp [pgxDo, hb, hc, txBegin, txCommit, txRollback, begansIn, isBegan,
      List.countP_append, Nat.succ_ne_self]

/-- Witness for C6's amended theorem at a concrete oracle, contexts and the
empty store. -/
theorem tx_do_reentrant_begins_new_witness :
    (∀ fn, pgxDo ⟨false, false, false, false⟩ ⟨some 5⟩ fn initStore
      = pgxDo ⟨false, false, false, false⟩ ⟨none⟩ fn initStore) ∧
    (pgxDo ⟨false, false, false, false⟩ ⟨some 5⟩
      (fun octx st => pgxDo ⟨false, false, false, false⟩ octx
        (fun ictx ist =>
          (if ictx.txVal = octx.txVal then some "reused outer tx" else none, ist)) st)
      initStore).1 = none ∧
    begansIn (pgxDo ⟨false, false, false, false⟩ ⟨some 5⟩
      (fun octx st => pgxDo ⟨false, false, false, false⟩ octx
        (fun ictx ist =>
          (if ictx.txVal = octx.txVal then some "reused outer tx" else none, ist)) st)
      initStore).2.trace = begansIn initStore.trace + 2 :=
  tx_do_reentrant_begins_new ⟨false, false, false, false⟩ ⟨some 5⟩ ⟨none⟩ initStore rfl rfl

/-- C3: for every received message, the retry loop invokes the handler at
most `maxRetries` (= 3) times, increments the message's attempt counter
before each invocation (`attempts` always equals the number of invocations
performed), and stops at the first success; a handler failing on the first
`k` attempts and succeeding on attempt `k` is invoked exactly `k + 1`
times, so failing exactly `maxRetries − 1` times and then succeeding means
exactly `maxRetries` invocations. -/
theorem consumer_retry_discipline (outcomes : Nat → Option String) :
    (consumeRetryLoop outcomes).invocations ≤ maxRetries ∧
    (consumeRetryLoop outcomes).attempts = (consumeRetryLoop outcomes).invocations ∧
    (∀ k, k < maxRetries → (∀ i, i < k → outcomes i ≠ none) → outcomes k = none →
      (consumeRetryLoop outcomes).invocations = k + 1 ∧
      (consumeRetryLoop outcomes).finalErr = none) ∧
    ((∀ i, i < maxRetries - 1 → outcomes i ≠ none) → outcomes (maxRetries - 1) = none →
      (consumeRetryLoop outcomes).invocations = maxRetries) := by
  rcases h0 : outcomes 0 with _ | e0
  · refine ⟨?_, ?_, ?_, ?_⟩ <;>
      simp [consumeRetryLoop, retryGo, maxRetries, h0]
    · intro k hk hfail hsucc
      rcases Nat.lt_or_ge k 1 with hk1 | hk1
      · omega
      · exact absurd h0 (hfail 0 (by omega))
    · intro hfail
      exact absurd h0 (hfail 0 (by omega))
  · rcases h1 : outcomes 1 with _ | e1
    · refine ⟨?_, ?_, ?_, ?_⟩ <;>
        simp [consumeRetryLoop, retryGo, maxRetries, h0, h1]
      · intro k hk hfail hsucc
        rcases Nat.lt_or_ge k 2 with hk1 | hk1
        · interval_cases k
          · exact absurd hsucc (by simp [h0])
          · omega
        · exact absurd h1 (hfail 1 (by omega))
      · intro hfail
        exact absurd h1 (hfail 1 (by omega))
    · rcases h2 : outcomes 2 with _ | e2
      · refine ⟨?_, ?_, ?_, ?_⟩ <;>
          simp [consumeRetryLoop, retryGo, maxRetries, h0, h1, h2]
        intro k hk hfail hsucc
        interval_cases k
        · exact absurd hsucc (by simp [h0])
        · exact absurd hsucc (by simp [h1])
        · omega
      · refine ⟨?_, ?_, ?_, ?_⟩ <;>
          simp [consumeRetryLoop, retryGo, maxRetries, h0, h1, h2]
        intro k hk hfail hsucc
        interval_cases k
        · exact absurd hsucc (by simp [h0])
        · exact absurd hsucc (by simp [h1])
        · exact absurd hsucc (by simp [h2])

/-- Witness for C3: a handler failing exactly twice and then succeeding is
invoked exactly three times with a clean final error. -/
theorem consumer_retry_discipline_witness :
    (consumeRetryLoop (fun i => if i < 2 then some "boom" else none)).invocations
      = maxRetries ∧
    (consumeRetryLoop (fun i => if i < 2 then some "boom" else none)).attempts
      = (consumeRetryLoop (fun i => if i < 2 then some "boom" else none)).invocations :=
  ⟨(consumer_retry_discipline (fun i => if i < 2 then some "boom" else none)).2.2.2
      (fun i hi => by simp only [maxRetries] at hi; interval_cases i <;> simp)
      (by simp [maxRetries]),
   (consumer_retry_discipline (fun i => if i < 2 then some "boom" else none)).2.1⟩

/-- C4 counterexample: the backoff is not `base * 2^attempt` for any base.
For an always-failing handler the loop sleeps 500 ms, 1000 ms, 1500 ms;
an exponential schedule starting at any base `b` would sleep
`b, 2b, 4b`, and no `b` satisfies both `b = 500` and `4b = 1500`. -/
theorem backoff_not_exponential_counterexample :
    (consumeRetryLoop (fun _ => some "boom")).sleeps = [500, 1000, 1500] ∧
    ¬ ∃ base : Nat,
      (consumeRetryLoop (fun _ => some "boom")).sleeps
        = [base * 2 ^ 0, base * 2 ^ 1, base * 2 ^ 2] := by
  refine ⟨rfl, ?_⟩
  rintro ⟨b, hb⟩
  rw [show (consumeRetryLoop (fun _ => some "boom")).sleeps = [500, 1000, 1500] from rfl] at hb
  simp at hb
  omega

/-- C4 amended: between handler attempts the loop sleeps
`(attempt + 1) * 500` ms — a linear schedule with a 500 ms step, not an
exponential `base * 2^attempt` one. Every sleep the loop performs follows
that schedule: the sleeps after a run are exactly `kafkaBackoff` at
indices `0, 1, ...`. -/
theorem backoff_linear (outcomes : Nat → Option String) :
    (∀ attempt, kafkaBackoff attempt = (attempt + 1) * 500) ∧
    (consumeRetryLoop outcomes).sleeps
      = (List.range (consumeRetryLoop outcomes).sleeps.length).map kafkaBackoff := by
  refine ⟨fun _ => rfl, ?_⟩
  rcases h0 : outcomes 0 with _ | e0 <;>
    rcases h1 : outcomes 1 with _ | e1 <;>
    rcases h2 : outcomes 2 with _ | e2 <;>
    simp [consumeRetryLoop, retryGo, maxRetries, h0, h1, h2, List.range_succ]

/-- Witness for C4's amended theorem: the concrete sleep schedule of an
always-failing run. -/
theorem backoff_linear_witness :
    (∀ attempt, kafkaBackoff attempt = (attempt + 1) * 500) ∧
    (consumeRetryLoop (fun _ => some "boom")).sleeps
      = (List.range (consumeRetryLoop (fun _ => some "boom")).sleeps.length).map
          kafkaBackoff :=
  backoff_linear (fun _ => some "boom")

/-- Every message of the stream is processed: a permanent failure never
halts the subscription loop. -/
theorem consumeAllMessages_length (d : Option String) (now : Nat)
    (msgs : List (KMsg × (Nat → Option String))) :
    (consumeAllMessages d now msgs).1.length = msgs.length := by
  induction msgs with
  | nil => rfl
  | cons mh rest ih => simp [consumeAllMessages, ih]

/-- C2: with a configured dead-letter topic, a message whose handler fails
on all `maxRetries` attempts produces exactly one `DeadLetterRecord` —
original event, final error text, retry count = `maxRetries`, timestamp —
published to that topic, and the consumer loop continues with the
remaining messages (all of them are still processed, and their records
follow the failed message's single record). -/
theorem dead_letter_on_exhaustion
    (t : String) (now : Nat) (m : KMsg) (outcomes : Nat → Option String)
    (e : Nat → String) (h : ∀ i, i < maxRetries → outcomes i = some (e i)) :
    processWithDeadLetter (some t) now m outcomes
      = (consumeRetryLoop outcomes,
         [(t, { originalMessage := m, error := e (maxRetries - 1),
                retryCount := maxRetries, timestamp := now })]) ∧
    (consumeRetryLoop outcomes).invocations = maxRetries ∧
    ∀ rest,
      (consumeAllMessages (some t) now ((m, outcomes) :: rest)).1.length
        = rest.length + 1 ∧
      (consumeAllMessages (some t) now ((m, outcomes) :: rest)).2
        = (t, { originalMessage := m, error := e (maxRetries - 1),
                retryCount := maxRetries, timestamp := now })
          :: (consumeAllMessages (some t) now rest).2 := by
  have h0 := h 0 (by simp [maxRetries])
  have h1 := h 1 (by simp [maxRetries])
  have h2 := h 2 (by simp [maxRetries])
  have hp : processWithDeadLetter (some t) now m outcomes
      = (consumeRetryLoop outcomes,
         [(t, { originalMessage := m, error := e (maxRetries - 1),
                retryCount := maxRetries, timestamp := now })]) := by
    simp [processWithDeadLetter, consumeRetryLoop, retryGo, maxRetries, h0, h1, h2]
  refine ⟨hp, ?_, fun rest => ⟨?_, ?_⟩⟩
  · simp [consumeRetryLoop, retryGo, maxRetries, h0, h1, h2]
  · simp [consumeAllMessages_length]
  · simp [consumeAllMessages, hp]

/-- Witness for C2: an always-"boom" handler on a configured dead-letter
topic yields one record with error "boom" and retry count 3 after three
attempts. -/
theorem dead_letter_on_exhaustion_witness :
    processWithDeadLetter (some "product-dlq") 7
        ⟨"id1", "product-events", "k1", "v1", "tenant-a"⟩ (fun _ => some "boom")
      = (consumeRetryLoop (fun _ => some "boom"),
         [("product-dlq",
           { originalMessage := ⟨"id1", "product-events", "k1", "v1", "tenant-a"⟩,
             error := "boom", retryCount := maxRetries, timestamp := 7 })]) ∧
    (consumeRetryLoop (fun _ => some "boom")).invocations = maxRetries :=
  ⟨(dead_letter_on_exhaustion "product-dlq" 7
      ⟨"id1", "product-events", "k1", "v1", "tenant-a"⟩ (fun _ => some "boom")
      (fun _ => "boom") (fun _ _ => rfl)).1,
   (dead_letter_on_exhaustion "product-dlq" 7
      ⟨"id1", "product-events", "k1", "v1", "tenant-a"⟩ (fun _ => some "boom")
      (fun _ => "boom") (fun _ _ => rfl)).2.1⟩

/-- C5: `CreateProduct` publishes its `product_created` event only after
`TxManager.Do` has returned success — whenever the call errs (begin, save
or commit failure) nothing is published and the durable rows are exactly
as before, so a rolled-back mutation is never announced — and a `Publish`
failure after the commit does not change the outcome: the committed write
is kept and the call still returns the created product with a nil error.
On full success the single event is published to "product-events". -/
theorem create_product_write_then_publish
    (o : PgxOracle) (pubFails : Bool) (newId : String) (now : Nat)
    (p : Product) (s : TxStore) :
    ((createProduct o pubFails newId now p s).err ≠ none →
      (createProduct o pubFails newId now p s).published = [] ∧
      (createProduct o pubFails newId now p s).store.committedRows
        = s.committedRows) ∧
    (o.beginFails = false → o.saveFails = false → o.commitFails = false →
      (createProduct o true newId now p s).err = none ∧
      (createProduct o true newId now p s).product
        = some { p with id := if p.id = "" then newId else p.id
                        createdAt := now, updatedAt := now } ∧
      (createProduct o true newId now p s).store.committedRows
        = s.committedRows
          ++ [{ p with id := if p.id = "" then newId else p.id
                       createdAt := now, updatedAt := now }] ∧
      (createProduct o true newId now p s).published = []) ∧
    (o.beginFails = false → o.saveFails = false → o.commitFails = false →
      (createProduct o false newId now p s).published
        = [{ topic := "product-events", eventType := ProductCreatedEvent
             tenantID := p.tenantID
             productID := if p.id = "" then newId else p.id
             supplierID := p.supplierID }]) := by
  refine ⟨?_, fun hb hs hc => ?_, fun hb hs hc => ?_⟩
  · intro hne
    cases hb : o.beginFails with
    | true =>
        simp [createProduct, pgxDo, hb]
    | false =>
        cases hs : o.saveFails with
        | true =>
            cases hr : o.rollbackFails <;>
              simp [createProduct, pgxDo, txBegin, txSaveProduct, txCommit,
                txRollback, hb, hs, hr]
        | false =>
            cases hc : o.commitFails with
            | true =>
                simp [createProduct, pgxDo, txBegin, txSaveProduct, txCommit,
                  txRollback, hb, hs, hc]
            | false =>
                exact absurd (by
                  simp [createProduct, pgxDo, txBegin, txSaveProduct, txCommit,
                    txRollback, hb, hs, hc]
                  cases pubFails <;> simp) hne
  · refine ⟨?_, ?_, ?_, ?_⟩ <;>
      simp [createProduct, pgxDo, txBegin, txSaveProduct, txCommit, txRollback,
        hb, hs, hc]
  · simp [createProduct, pgxDo, txBegin, txSaveProduct, txCommit, txRollback,
      hb, hs, hc]

/-- Witness for C5: a concrete committed-then-publish-failed run keeps the
write and returns the product, and a concrete save-failure run publishes
nothing and leaves the durable rows unchanged. -/
theorem create_product_write_then_publish_witness :
    ((createProduct ⟨false, false, false, true⟩ false "new-id" 3
        ⟨"", "sup", "ten", 0, 0⟩ initStore).err ≠ none →
      (createProduct ⟨false, false, false, true⟩ false "new-id" 3
        ⟨"", "sup", "ten", 0, 0⟩ initStore).published = [] ∧
      (createProduct ⟨false, false, false, true⟩ false "new-id" 3
        ⟨"", "sup", "ten", 0, 0⟩ initStore).store.committedRows
        = initStore.committedRows) ∧
    ((createProduct ⟨false, false, false, false⟩ true "new-id" 3
        ⟨"", "sup", "ten", 0, 0⟩ initStore).err = none ∧
      (createProduct ⟨false, false, false, false⟩ true "new-id" 3
        ⟨"", "sup", "ten", 0, 0⟩ initStore).product
        = some ⟨"new-id", "sup", "ten", 3, 3⟩ ∧
      (createProduct ⟨false, false, false, false⟩ true "new-id" 3
        ⟨"", "sup", "ten", 0, 0⟩ initStore).store.committedRows
        = initStore.committedRows ++ [⟨"new-id", "sup", "ten", 3, 3⟩] ∧
      (createProduct ⟨false, false, false, false⟩ true "new-id" 3
        ⟨"", "sup", "ten", 0, 0⟩ initStore).published = []) :=
  ⟨(create_product_write_then_publish ⟨false, false, false, true⟩ false "new-id" 3
      ⟨"", "sup", "ten", 0, 0⟩ initStore).1,
   by
    have h := (create_product_write_then_publish ⟨false, false, false, false⟩ true
      "new-id" 3 ⟨"", "sup", "ten", 0, 0⟩ initStore).2.1 rfl rfl rfl
    simpa using h⟩

/-- C10: `ListProducts` normalizes its pagination arguments before
querying: `page ≤ 0` becomes 1, `pageSize ≤ 0` becomes 20, `pageSize >
100` becomes 100, in-range values pass through, and the repository query
therefore always runs with `page ≥ 1` and `1 ≤ pageSize ≤ 100`. -/
theorem list_products_pagination_normalized (page pageSize : Int) :
    1 ≤ (listProductsRepoArgs page pageSize).1 ∧
    1 ≤ (listProductsRepoArgs page pageSize).2 ∧
    (listProductsRepoArgs page pageSize).2 ≤ 100 ∧
    (page ≤ 0 → (listProductsRepoArgs page pageSize).1 = 1) ∧
    (0 < page → (listProductsRepoArgs page pageSize).1 = page) ∧
    (pageSize ≤ 0 → (listProductsRepoArgs page pageSize).2 = 20) ∧
    (100 < pageSize → (listProductsRepoArgs page pageSize).2 = 100) ∧
    (0 < pageSize → pageSize ≤ 100 → (listProductsRepoArgs page pageSize).2 = pageSize) := by
  simp only [listProductsRepoArgs]
  split_ifs <;> refine ⟨?_, ?_, ?_, ?_, ?_, ?_, ?_, ?_⟩ <;> intros <;> omega

/-- Witness for C10: out-of-range arguments from both sides. -/
theorem list_products_pagination_normalized_witness :
    (listProductsRepoArgs (-4) 500).1 = 1 ∧
    (listProductsRepoArgs (-4) 500).2 = 100 :=
  ⟨(list_products_pagination_normalized (-4) 500).2.2.2.1 (by decide),
   (list_products_pagination_normalized (-4) 500).2.2.2.2.2.2.1 (by decide)⟩

/-- C8 counterexample: the administrative operations are not idempotent.
Creating "events" on a broker that already has it returns an error, and
deleting "events" from an empty broker returns an error, contradicting
"returns no error" in both directions. -/
theorem topic_admin_not_idempotent_counterexample :
    (createTopic ["events"] "events").2 = some "topic error: events" ∧
    (deleteTopic [] "events").2 = some "topic error: events" := by
  constructor <;> rfl

/-- C8 amended: `CreateTopic` and `DeleteTopic` succeed only when the
broker reports `ErrNoError`: creating a fresh topic or deleting an
existing one succeeds, while creating an existing topic or deleting an
absent one returns an error (the result-check loop treats any non-
`ErrNoError` code, `ErrTopicAlreadyExists` and `ErrUnknownTopicOrPart`
included, as a failure). -/
theorem topic_admin_strict
    (broker : List String) (topic : String) :
    (topic ∈ broker →
      (createTopic broker topic).2 = some ("topic error: " ++ topic) ∧
      (createTopic broker topic).1 = broker) ∧
    (topic ∉ broker →
      (createTopic broker topic).2 = none ∧
      (createTopic broker topic).1 = broker ++ [topic]) ∧
    (topic ∈ broker →
      (deleteTopic broker topic).2 = none ∧
      (deleteTopic broker topic).1 = broker.erase topic) ∧
    (topic ∉ broker →
      (deleteTopic broker topic).2 = some ("topic error: " ++ topic) ∧
      (deleteTopic broker topic).1 = broker) := by
  refine ⟨fun h => ?_, fun h => ?_, fun h => ?_, fun h => ?_⟩ <;>
    simp [createTopic, deleteTopic, adminCreateTopics, adminDeleteTopics,
      checkTopicResults, h]

/-- Witness for C8's amended theorem on a two-topic broker. -/
theorem topic_admin_strict_witness :
    ((createTopic ["a", "b"] "a").2 = some "topic error: a" ∧
      (createTopic ["a", "b"] "a").1 = ["a", "b"]) ∧
    ((createTopic ["a", "b"] "c").2 = none ∧
      (createTopic ["a", "b"] "c").1 = ["a", "b", "c"]) ∧
    ((deleteTopic ["a", "b"] "b").2 = none ∧
      (deleteTopic ["a", "b"] "b").1 = ["a"]) ∧
    ((deleteTopic ["a", "b"] "c").2 = some "topic error: c" ∧
      (deleteTopic ["a", "b"] "c").1 = ["a", "b"]) :=
  ⟨(topic_admin_strict ["a", "b"] "a").1 (by decide),
   (topic_admin_strict ["a", "b"] "c").2.1 (by decide),
   by
    have h := (topic_admin_strict ["a", "b"] "b").2.2.1 (by decide)
    simpa using h,
   (topic_admin_strict ["a", "b"] "c").2.2.2 (by decide)⟩

/-- C9: after `unsubscribe` returns, the subscription's handler is gone
from the registry, so every subsequent poll cycle of that consumer loop
finds no handler and skips invocation (the registry is never re-populated
for that id, so this holds for all later cycles alike); exactly that
subscription's consumer is closed; and no other subscription is affected —
other handler ids on the same topic still resolve to their handlers, their
consumers stay registered, and other topics' handler maps are untouched. -/
theorem unsubscribe_stops_invocations (k : KafkaRegistry) (topic hid : String) :
    pollStep (unsubscribeStep k topic hid).1 topic hid = none ∧
    (unsubscribeStep k topic hid).2
      = (match k.consumers hid with | some c => [c] | none => []) ∧
    (∀ hid2, hid2 ≠ hid →
      (unsubscribeStep k topic hid).1.consumers hid2 = k.consumers hid2 ∧
      pollStep (unsubscribeStep k topic hid).1 topic hid2 = pollStep k topic hid2) ∧
    (∀ topic2, topic2 ≠ topic →
      (unsubscribeStep k topic hid).1.handlers topic2 = k.handlers topic2) := by
  refine ⟨?_, rfl, fun hid2 h2 => ⟨by simp [unsubscribeStep, h2], ?_⟩, fun t2 ht => ?_⟩
  · cases hk : k.handlers topic <;> simp [pollStep, unsubscribeStep, hk]
  · cases hk : k.handlers topic <;> simp [pollStep, unsubscribeStep, hk, h2]
  · simp [unsubscribeStep, ht]

/-- Witness for C9: a registry with two subscriptions on "events"; after
unsubscribing `h1`, its poll lookup skips, consumer 1 alone is closed, and
`h2` still resolves with its consumer registered. -/
theorem unsubscribe_stops_invocations_witness :
    pollStep (unsubscribeStep
      ⟨fun t => if t = "events"
          then some (fun h => if h = "h1" then some 11 else if h = "h2" then some 22 else none)
          else none,
        fun h => if h = "h1" then some 1 else if h = "h2" then some 2 else none⟩
      "events" "h1").1 "events" "h1" = none ∧
    (unsubscribeStep
      ⟨fun t => if t = "events"
          then some (fun h => if h = "h1" then some 11 else if h = "h2" then some 22 else none)
          else none,
        fun h => if h = "h1" then some 1 else if h = "h2" then some 2 else none⟩
      "events" "h1").2 = [1] ∧
    (unsubscribeStep
      ⟨fun t => if t = "events"
          then some (fun h => if h = "h1" then some 11 else if h = "h2" then some 22 else none)
          else none,
        fun h => if h = "h1" then some 1 else if h = "h2" then some 2 else none⟩
      "events" "h1").1.consumers "h2" = some 2 ∧
    pollStep (unsubscribeStep
      ⟨fun t => if t = "events"
          then some (fun h => if h = "h1" then some 11 else if h = "h2" then some 22 else none)
          else none,
        fun h => if h = "h1" then some 1 else if h = "h2" then some 2 else none⟩
      "events" "h1").1 "events" "h2" = some 22 := by
  have h := unsubscribe_stops_invocations
    ⟨fun t => if t = "events"
        then some (fun h => if h = "h1" then some 11 else if h = "h2" then some 22 else none)
        else none,
      fun h => if h = "h1" then some 1 else if h = "h2" then some 2 else none⟩
    "events" "h1"
  refine ⟨h.1, ?_, ?_, ?_⟩
  · rw [h.2.1]
    rfl
  · rw [(h.2.2.1 "h2" (by decide)).1]
    rfl
  · rw [(h.2.2.1 "h2" (by decide)).2]
    rfl

/-- Collapsing leading stars never lengthens the pattern. -/
theorem skipStars_length (p : List Char) : (skipStars p).length ≤ p.length := by
  induction p with
  | nil => simp [skipStars]
  | cons c p ih =>
      rw [skipStars]
      split
      · exact Nat.le_succ_of_le ih
      · exact Nat.le_refl _

/-- A non-star head is kept by `skipStars`. -/
theorem skipStars_cons_of_ne (c : Char) (p : List Char) (h : ¬ c = '*') :
    skipStars (c :: p) = c :: p := by
  rw [skipStars, if_neg h]

/-- Class negation never lengthens the pattern. -/
theorem classNeg_length (p : List Char) : (classNeg p).2.length ≤ p.length := by
  cases p with
  | nil => simp [classNeg]
  | cons c p =>
      rw [classNeg]
      split <;> simp

/-- The class-body scan never lengthens the pattern. -/
theorem classBody_length (p : List Char) (c : Char) (m : Bool) :
    (classBody p c m).2.length ≤ p.length := by
  induction p, c, m using classBody.induct with
  | case1 => simp [classBody]
  | case2 d rest c m ih =>
      rw [classBody]
      refine le_trans ih ?_
      simp
      omega
  | case3 x b rest2 c m hx hx2 =>
      have hxc : ¬ x = '\\' := fun h => hx h
      rw [show classBody (x :: '-' :: b :: rest2) c m
          = (m, '-' :: b :: rest2) from by
        rw [classBody.eq_def]
        simp [hxc, hx2]]
      simp
  | case4 x b rest2 c m hx hx2 ih =>
      have hxc : ¬ x = '\\' := fun h => hx h
      rw [show classBody (x :: '-' :: b :: rest2) c m
          = classBody rest2 c (m || rangeMatch x b c) from by
        rw [classBody.eq_def]
        simp [hxc, hx2]]
      refine le_trans ih ?_
      simp
      omega
  | case5 x rest c m hne hr hx2 =>
      rw [show classBody (x :: rest) c m = (m, rest) from by
        rw [classBody.eq_def]
        cases rest with
        | nil =>
            cases hcx : x == '\\' <;> simp_all
        | cons y rest1 =>
            have hxc : ¬ x = '\\' := fun h => hne y rest1 h rfl
            by_cases hy : y = '-'
            · cases rest1 with
              | nil => simp [hxc, hx2]
              | cons b rest2 => exact absurd rfl (by subst hy; exact hr b rest2)
            · simp [hxc, hx2]]
      simp
  | case6 x rest c m hne hr hx2 ih =>
      rw [show classBody (x :: rest) c m = classBody rest c (m || (x == c)) from by
        rw [classBody.eq_def]
        cases rest with
        | nil =>
            cases hcx : x == '\\' <;> simp_all
        | cons y rest1 =>
            have hxc : ¬ x = '\\' := fun h => hne y rest1 h rfl
            by_cases hy : y = '-'
            · cases rest1 with
              | nil => simp [hxc, hx2]
              | cons b rest2 => exact absurd rfl (by subst hy; exact hr b rest2)
            · simp [hxc, hx2]]
      exact le_trans ih (by simp)

/-- The fuelled matcher is fuel-independent above the
`pattern.length + string.length` measure: `globMatch` computes Redis glob
matching. -/
theorem gm_fuel_eq : ∀ f g p s, p.length + s.length < f → p.length + s.length < g →
    gm f p s = gm g p s := by
  intro f
  induction f with
  | zero => exact fun g p s hf _ => absurd hf (Nat.not_lt_zero _)
  | succ f ih =>
      intro g p s hf hg
      cases g with
      | zero => exact absurd hg (Nat.not_lt_zero _)
      | succ g =>
          cases p with
          | nil => rfl
          | cons c p =>
              cases s with
              | nil => rfl
              | cons d s =>
                  simp only [List.length_cons] at hf hg
                  simp only [gm]
                  by_cases h1 : c == '*'
                  · rw [if_pos h1, if_pos h1]
                    have hsk := skipStars_length p
                    rw [ih g (skipStars p) (d :: s)
                          (by simp only [List.length_cons]; omega)
                          (by simp only [List.length_cons]; omega),
                        ih g (c :: p) s
                          (by simp only [List.length_cons]; omega)
                          (by simp only [List.length_cons]; omega)]
                  · rw [if_neg h1, if_neg h1]
                    by_cases h2 : c == '?'
                    · rw [if_pos h2, if_pos h2]
                      cases s with
                      | nil => rfl
                      | cons d2 s2 =>
                          exact ih g p (d2 :: s2)
                            (by simp only [List.length_cons] at hf ⊢; omega)
                            (by simp only [List.length_cons] at hg ⊢; omega)
                    · rw [if_neg h2, if_neg h2]
                      by_cases h3 : c == '['
                      · rw [if_pos h3, if_pos h3]
                        have hb := classBody_length (classNeg p).2 d false
                        have hn := classNeg_length p
                        cases s with
                        | nil => rfl
                        | cons d2 s2 =>
                            exact congrArg
                              (fun x => ((if (classNeg p).1 then
                                !(classBody (classNeg p).2 d false).1
                                else (classBody (classNeg p).2 d false).1) && x))
                              (ih g (classBody (classNeg p).2 d false).2 (d2 :: s2)
                                (by simp only [List.length_cons] at hf ⊢; omega)
                                (by simp only [List.length_cons] at hg ⊢; omega))
                      · rw [if_neg h3, if_neg h3]
                        by_cases h4 : c == '\\'
                        · rw [if_pos h4, if_pos h4]
                          cases p with
                          | nil => rfl
                          | cons e p2 =>
                              cases s with
                              | nil => rfl
                              | cons d2 s2 =>
                                  exact congrArg (fun x => ((e == d) && x))
                                    (ih g p2 (d2 :: s2)
                                      (by simp only [List.length_cons] at hf ⊢; omega)
                                      (by simp only [List.length_cons] at hg ⊢; omega))
                        · rw [if_neg h4, if_neg h4]
                          cases s with
                          | nil => rfl
                          | cons d2 s2 =>
                              exact congrArg (fun x => ((c == d) && x))
                                (ih g p (d2 :: s2)
                                  (by simp only [List.length_cons] at hf ⊢; omega)
                                  (by simp only [List.length_cons] at hg ⊢; omega))

/-- Peeling one literal pattern character: a match forces the subject to
start with that exact character. -/
theorem globMatch_lit_cons (c : Char) (p s : List Char) (hc : isLit c = true) :
    globMatch (c :: p) s = true →
    ∃ d s2, s = d :: s2 ∧ c = d ∧ gmTail p s2 = true := by
  simp only [isLit, Bool.and_eq_true, Bool.not_eq_true', beq_eq_false_iff_ne] at hc
  obtain ⟨⟨⟨hc1, hc2⟩, hc3⟩, hc4⟩ := hc
  cases s with
  | nil =>
      intro h
      exact absurd h (by simp [globMatch, gm])
  | cons d s2 =>
      intro h
      cases s2 with
      | nil =>
          simp [globMatch, gm, hc1, hc2, hc3, hc4] at h
          exact ⟨d, [], rfl, h.1, by simpa [gmTail] using h.2⟩
      | cons d2 s3 =>
          simp [globMatch, gm, hc1, hc2, hc3, hc4] at h
          refine ⟨d, d2 :: s3, rfl, h.1, ?_⟩
          have h2 := h.2
          rw [show gmTail p (d2 :: s3) = globMatch p (d2 :: s3) from rfl, globMatch]
          rw [gm_fuel_eq (p.length + (d2 :: s3).length + 1)
            (p.length + 1 + (s3.length + 1 + 1)) p (d2 :: s3) (by simp) (by simp; omega)]
          exact h2

/-- Peeling a run of literal pattern characters: a match against
`lit ++ p` pins `lit` as a prefix of the subject. -/
theorem globMatch_lit_append (lit : List Char) (hlit : ∀ c ∈ lit, isLit c = true) :
    ∀ p s, globMatch (lit ++ p) s = true → ∃ s2, s = lit ++ s2 := by
  induction lit with
  | nil => exact fun p s _ => ⟨s, rfl⟩
  | cons c lit ih =>
      intro p s h
      obtain ⟨d, s2, hs, hcd, htail⟩ :=
        globMatch_lit_cons c (lit ++ p) s (hlit c (by simp)) (by simpa using h)
      subst hs
      cases hcd
      cases lit with
      | nil => exact ⟨s2, rfl⟩
      | cons c2 lit2 =>
          cases s2 with
          | nil =>
              exfalso
              have hc2 := hlit c2 (by simp)
              simp only [isLit, Bool.and_eq_true, Bool.not_eq_true',
                beq_eq_false_iff_ne] at hc2
              rw [show gmTail ((c2 :: lit2) ++ p) [] =
                  (skipStars ((c2 :: lit2) ++ p)).isEmpty from rfl] at htail
              rw [show (c2 :: lit2) ++ p = c2 :: (lit2 ++ p) from rfl,
                skipStars_cons_of_ne c2 (lit2 ++ p) hc2.1.1.1] at htail
              simp at htail
          | cons e s3 =>
              obtain ⟨s4, hs4⟩ := ih (fun c hc => hlit c (by simp [hc])) p (e :: s3)
                (by simpa [gmTail] using htail)
              exact ⟨s4, by simp [hs4]⟩

/-- Two colon-free words followed by a colon delimit uniquely. -/
theorem colon_delimited_inj (A : List Char) :
    ∀ B x y, ':' ∉ A → ':' ∉ B → A ++ ':' :: x = B ++ ':' :: y →
      A = B ∧ x = y := by
  induction A with
  | nil =>
      intro B x y _ hB h
      cases B with
      | nil => simpa using h
      | cons b B2 =>
          exfalso
          have hb : ':' = b := by simpa using congrArg (fun l => l.headI) h
          exact hB (hb ▸ List.mem_cons_self b B2)
  | cons a A2 ih =>
      intro B x y hA hB h
      cases B with
      | nil =>
          exfalso
          have ha : a = ':' := by simpa using congrArg (fun l => l.headI) h
          exact hA (ha ▸ List.mem_cons_self a A2)
      | cons b B2 =>
          simp only [List.cons_append, List.cons.injEq] at h
          obtain ⟨hab, htl⟩ := h
          obtain ⟨hAB, hxy⟩ := ih B2 x y (fun hmem => hA (List.mem_cons_of_mem a hmem))
            (fun hmem => hB (List.mem_cons_of_mem b hmem)) htl
          exact ⟨by rw [hab, hAB], hxy⟩

/-- C7 amended: for ordinary tenant identifiers — `t1` free of glob
metacharacters (`*`, `?`, `[`, `\`) and of the `:` delimiter, `t2` free of
`:` — with `t1 ≠ t2` and both nonempty, `DeleteByPatternWithTenant`
invoked for `t1` never deletes a key belonging to `t2`: every cached
`buildKey k t2` survives, for every pattern. Scoping is enforced by
prefixing the scan pattern (`buildKey pattern t1`), not by post-filtering;
the restriction on identifier alphabets is necessary — see the
counterexample — because the prefix is spliced into the glob pattern
unescaped. -/
theorem tenant_scoped_invalidation
    (t1 t2 pat k : String)
    (h1 : t1 ≠ "") (h2 : t2 ≠ "") (hne : t1 ≠ t2)
    (ht1 : ∀ c ∈ t1.toList, isLit c = true ∧ ¬ c = ':')
    (ht2 : ':' ∉ t2.toList)
    (cache : List String) (hk : buildKey k t2 ∈ cache) :
    buildKey k t2 ∈ deleteByPatternWithTenant cache pat t1 := by
  rw [deleteByPatternWithTenant, List.mem_filter]
  refine ⟨hk, ?_⟩
  cases hb : globMatch (buildKey pat t1).toList (buildKey k t2).toList with
  | false => simp [hb]
  | true =>
      exfalso
      rw [show buildKey pat t1 = "tenant:" ++ t1 ++ ":" ++ pat from by
            rw [buildKey, if_pos h1],
          show buildKey k t2 = "tenant:" ++ t2 ++ ":" ++ k from by
            rw [buildKey, if_pos h2]] at hb
      have hlitall : ∀ c ∈ ("tenant:".toList ++ t1.toList ++ [':']), isLit c = true := by
        intro c hc
        simp only [List.mem_append] at hc
        rcases hc with (hc | hc) | hc
        · have hc7 : c ∈ ['t', 'e', 'n', 'a', 'n', 't', ':'] := hc
          fin_cases hc7 <;> rfl
        · exact (ht1 c hc).1
        · simp only [List.mem_singleton] at hc
          subst hc
          rfl
      obtain ⟨s2, hs2⟩ :=
        globMatch_lit_append ("tenant:".toList ++ t1.toList ++ [':']) hlitall
          pat.toList (("tenant:" ++ t2 ++ ":" ++ k).toList)
          (by
            have : ("tenant:" ++ t1 ++ ":" ++ pat).toList
                = ("tenant:".toList ++ t1.toList ++ [':']) ++ pat.toList := rfl
            rw [this] at hb
            exact hb)
      have hs2' : "tenant:".toList ++ (t2.toList ++ (':' :: k.toList))
          = "tenant:".toList ++ (t1.toList ++ (':' :: s2)) := by
        have e2 : ("tenant:" ++ t2 ++ ":" ++ k).toList
            = ("tenant:".toList ++ t2.toList ++ [':']) ++ k.toList := rfl
        rw [e2] at hs2
        simpa [List.append_assoc] using hs2
      have hcancel := List.append_cancel_left hs2'
      have hinj := colon_delimited_inj t2.toList t1.toList k.toList s2 ht2
        (fun hmem => (ht1 ':' hmem).2 rfl) hcancel
      exact hne (String.ext hinj.1.symm)

/-- Witness for C7's amended theorem: invalidating every `products:list:*`
entry of tenant "a" leaves tenant "b"'s list entry in the cache. -/
theorem tenant_scoped_invalidation_witness :
    buildKey "products:list:1" "b"
      ∈ deleteByPatternWithTenant
          [buildKey "products:list:1" "b", buildKey "products:list:1" "a"]
          "products:list:*" "a" :=
  tenant_scoped_invalidation "a" "b" "products:list:*" "products:list:1"
    (by decide) (by decide) (by decide)
    (by intro c hc; fin_cases hc; exact ⟨rfl, by decide⟩)
    (by decide)
    [buildKey "products:list:1" "b", buildKey "products:list:1" "a"]
    (by simp)

/-- C7 counterexample: as universally quantified over all tenants, the
claim is false — the tenant id is spliced into the scan pattern with no
escaping and no delimiter-freedom check. With `T1 = "*"` and `T2 = "b"`,
invalidating `T1`'s `products:list:*` pattern scans
`tenant:*:products:list:*` and deletes `T2`'s key
`tenant:b:products:list:1` (which does not carry `T1`'s prefix
`tenant:*:`); with `T1 = "a"` and `T2 = "a:b"`, invalidating `T1`'s `*`
pattern scans `tenant:a:*` and deletes `T2`'s key `tenant:a:b:k`. -/
theorem tenant_pattern_cross_delete_counterexample :
    ("*" : String) ≠ "b" ∧
    buildKey "products:list:1" "b" = "tenant:b:products:list:1" ∧
    deleteByPatternWithTenant ["tenant:b:products:list:1"] "products:list:*" "*"
      = [] ∧
    ("a" : String) ≠ "a:b" ∧
    buildKey "k" "a:b" = "tenant:a:b:k" ∧
    deleteByPatternWithTenant ["tenant:a:b:k"] "*" "a" = [] := by
  exact ⟨by decide, by decide, by decide, by decide, by decide, by decide⟩
